import Mathlib

/-!
Shallow embedding of `src/write_tdms.py` (oosterkampgroep/write_tdms):
the continuous-acquisition / segmented-logging core (classes `Reader` and
`Mainwindow`).  UI widgets (`Picker`, `Combopicker`, menus, matplotlib
plumbing) are external collaborators and are represented only by the
side-effect events they receive.

Modelling conventions:
* Python strings are `List Char`; tkinter `StringVar`/`IntVar` cells are
  plain fields of the state records.
* Side effects on the hardware / persistence / UI collaborators are
  recorded as an explicit `List Ev` event trace.
* A Python exception propagating out of a function is `Option.none`
  (or an explicit `raised` field for the streaming callback).
* Python `float` values are modelled as exact rationals: the numeric
  literals the program manipulates (`"200k" -> "200E3"`, etc.) are exactly
  representable, so binary rounding and overflow of IEEE doubles are not
  modelled (nor are `inf`/`nan` literals or digit-group underscores, on
  which `int(...)` raises anyway).
-/

/-! ### Characters and digit/space predicates (`"1234567890"` at line 523) -/

def isDigitChar (c : Char) : Bool :=
  c = '1' || c = '2' || c = '3' || c = '4' || c = '5' ||
  c = '6' || c = '7' || c = '8' || c = '9' || c = '0'

/-- ASCII whitespace accepted by Python `float` around a literal. -/
def isSpaceChar (c : Char) : Bool :=
  c = ' ' || c = '\t' || c = '\n' || c = '\r'

/-! ### `Mainwindow.int_from_str` (lines 520-525)

    var_string = var_string.replace("k", "E3")
    var_string = var_string.replace("M", "E6")
    while var_string[-1] not in "1234567890":
        var_string = var_string[:-1]
    return int(float(var_string))
-/

/-- `str.replace` for a single-character needle: every occurrence of `t`
is replaced by `rep`. -/
def replaceChar (t : Char) (rep : List Char) : List Char → List Char
  | [] => []
  | c :: cs => (if c = t then rep else [c]) ++ replaceChar t rep cs

/-- The two `replace` calls of `int_from_str`, in source order
(`"k" -> "E3"` first, then `"M" -> "E6"`). -/
def replaceKM (s : List Char) : List Char :=
  replaceChar 'M' ['E', '6'] (replaceChar 'k' ['E', '3'] s)

/-- The `while var_string[-1] not in "1234567890"` loop: trailing
non-digit characters are removed one by one; indexing `[-1]` on the empty
string raises `IndexError`, modelled as `none`. -/
def stripTrail (s : List Char) : Option (List Char) :=
  let r := s.reverse.dropWhile (fun c => !(isDigitChar c))
  if r = [] then none else some r.reverse

def digitVal (c : Char) : ℕ :=
  if c = '1' then 1 else if c = '2' then 2 else if c = '3' then 3 else
  if c = '4' then 4 else if c = '5' then 5 else if c = '6' then 6 else
  if c = '7' then 7 else if c = '8' then 8 else if c = '9' then 9 else 0

def digitsToNat (ds : List Char) : ℕ :=
  ds.foldl (fun a c => 10 * a + digitVal c) 0

/-- Optional `+`/`-` sign in a float literal. -/
def parseSign (s : List Char) : ℤ × List Char :=
  match s with
  | [] => (1, [])
  | c :: cs => if c = '+' then (1, cs) else if c = '-' then (-1, cs) else (1, c :: cs)

/-- Significand of a Python float literal: `digits [. digits]` with at
least one digit overall.  Returns `(mant, fracLen, rest)`: the value is
`mant / 10 ^ fracLen` and `rest` is the unconsumed remainder. -/
def parseMantissa (s : List Char) : Option (ℕ × ℕ × List Char) :=
  let ds1 := s.takeWhile isDigitChar
  let r1 := s.dropWhile isDigitChar
  if r1.head? = some '.' then
    let r2 := r1.tail
    let ds2 := r2.takeWhile isDigitChar
    let r3 := r2.dropWhile isDigitChar
    if ds1 = [] ∧ ds2 = [] then none
    else some (digitsToNat ds1 * 10 ^ ds2.length + digitsToNat ds2, ds2.length, r3)
  else if ds1 = [] then none else some (digitsToNat ds1, 0, r1)

/-- Exponent part (after the `e`/`E`): optional sign then digits,
consuming the whole rest of the literal. -/
def parseExp (s : List Char) : Option ℤ :=
  let p := parseSign s
  let ds := p.2.takeWhile isDigitChar
  let r := p.2.dropWhile isDigitChar
  if ds = [] then none
  else if r = [] then some (p.1 * (digitsToNat ds : ℤ)) else none

/-- Exact representation of a finite Python float: the value
`sg * mant * 10 ^ dexp` with `sg ∈ {1, -1}`. -/
structure PyFloatRep where
  sg : ℤ
  mant : ℕ
  dexp : ℤ
deriving DecidableEq

/-- The exact rational value of a parsed float literal. -/
def PyFloatRep.val (f : PyFloatRep) : ℚ :=
  (f.sg : ℚ) * (f.mant : ℚ) * (10 : ℚ) ^ f.dexp

/-- Exact value of Python `float(...)` on a finite numeric literal
(leading whitespace, optional sign, significand, optional exponent);
`none` when `float` raises `ValueError`.  `inf`/`nan` literals and
digit-group underscores are folded into `none` as well: on those inputs
the subsequent `int(...)` raises, which is the only behaviour
`int_from_str` can observe. -/
def parseFloatRep (s : List Char) : Option PyFloatRep :=
  let s1 := s.dropWhile isSpaceChar
  let p := parseSign s1
  match parseMantissa p.2 with
  | none => none
  | some mv =>
    match mv.2.2 with
    | [] => some ⟨p.1, mv.1, -(mv.2.1 : ℤ)⟩
    | c :: r2 =>
      if c = 'e' ∨ c = 'E' then
        match parseExp r2 with
        | none => none
        | some e => some ⟨p.1, mv.1, e - (mv.2.1 : ℤ)⟩
      else none

/-- Python `int(...)` on a rational value: truncation toward zero. -/
def pyTrunc (q : ℚ) : ℤ :=
  if 0 ≤ q then ⌊q⌋ else -⌊-q⌋

/-- `int(float(...))` computed over the exact representation, with
integer arithmetic only (truncation toward zero). -/
def pyInt (f : PyFloatRep) : ℤ :=
  if 0 ≤ f.dexp then f.sg * ((f.mant * 10 ^ f.dexp.toNat : ℕ) : ℤ)
  else f.sg * ((f.mant / 10 ^ (-f.dexp).toNat : ℕ) : ℤ)

/-- `Mainwindow.int_from_str`: `none` models an uncaught exception
(`IndexError` from the strip loop, or `ValueError` from `float`). -/
def int_from_str (s : List Char) : Option ℤ :=
  match stripTrail (replaceKM s) with
  | none => none
  | some t =>
    match parseFloatRep t with
    | none => none
    | some f => some (pyInt f)

/-! ### Side-effect events on the external collaborators -/

/-- Terminal configuration dictionary (lines 344-349). -/
inductive TermConfig
  | default
  | diff
  | rse
  | nrse
deriving DecidableEq

/-- One observable side effect on the hardware / persistence / UI
collaborators, in program order. -/
inductive Ev
  | taskCreate
  | addChannels (chans : List Char)
  | cfgClock (rate sampsPerChan : ℤ)
  | cfgLogging (path : List Char)
  | setInputBufSize (n : ℤ)
  | registerEveryN (n : ℤ)
  | taskStart
  | taskStop
  | taskClose
  | readBlock (rows : ℕ) (cols nPerChan : ℤ)
  | plot
  | startNewFile (path : List Char)
  | msgBox (title : List Char)
  | errorBox (code : ℤ) (diag : List Char)
deriving DecidableEq

/-! ### `Reader` (lines 147-195) -/

/-- What has been programmed into the `nidaqmx.Task`. -/
structure TaskState where
  sampClkRate : ℤ
  sampClkSampsPerChan : ℤ
  inputBufSize : Option ℤ
  loggingPath : Option (List Char)
  everyN : Option ℤ
  started : Bool
deriving DecidableEq

/-- The `Reader` object.  `dataInRows × dataInCols` is the shape of the
`np.zeros` buffer `data_in` (line 167); `task = none` models
`self.task = False` (no live hardware handle). -/
structure Reader where
  physicalChannels : List Char
  sampleRate : ℤ
  blockSize : ℤ
  logging : Bool
  vmin : ℤ
  vmax : ℤ
  termconfig : TermConfig
  dataInRows : ℕ
  dataInCols : ℤ
  task : Option TaskState
deriving DecidableEq

/-- `Reader.__init__` (lines 148-167): the sample buffer is allocated
once, with `physical_channels.count(",") + 1` rows and
`settings["sample block size"] = block_size` columns.  (The `settings`
dict's "number of channels" entry, computed through the external
`nidaqmx` channel object, is not consumed by the core and is omitted.) -/
def Reader.init (physical_channels : List Char) (sample_rate block_size : ℤ)
    (logging : Bool) (vmin vmax : ℤ) (termconfig : TermConfig) : Reader :=
  { physicalChannels := physical_channels
    sampleRate := sample_rate
    blockSize := block_size
    logging := logging
    vmin := vmin
    vmax := vmax
    termconfig := termconfig
    dataInRows := (physical_channels.filter (fun c => c = ',')).length + 1
    dataInCols := block_size
    task := none }

/-- `Reader.configure_task` (lines 169-182): creates the task, adds the
voltage channels, and programs the continuous sample clock with
`samps_per_chan = 10 * self.sample_rate`. -/
def Reader.configure_task (r : Reader) : Reader × List Ev :=
  ({ r with task := some { sampClkRate := r.sampleRate
                           sampClkSampsPerChan := 10 * r.sampleRate
                           inputBufSize := none
                           loggingPath := none
                           everyN := none
                           started := false } },
   [Ev.taskCreate, Ev.addChannels r.physicalChannels,
    Ev.cfgClock r.sampleRate (10 * r.sampleRate)])

/-- `Reader.start_reading` (lines 184-187): registers the every-N-samples
callback with `self.block_size` and starts the task.  `none` models the
`AttributeError` raised when `self.task` is `False`. -/
def Reader.start_reading (r : Reader) : Option (Reader × List Ev) :=
  match r.task with
  | none => none
  | some t =>
    some ({ r with task := some { t with everyN := some r.blockSize, started := true } },
          [Ev.registerEveryN r.blockSize, Ev.taskStart])

/-- `Reader.pausefunc` (lines 189-190): `self.task.stop()`. -/
def Reader.pausefunc (r : Reader) : Option (Reader × List Ev) :=
  match r.task with
  | none => none
  | some t => some ({ r with task := some { t with started := false } }, [Ev.taskStop])

/-- `Reader.stopfunc` (lines 192-195): pause first, then
`self.task.close()` and `self.task = False`. -/
def Reader.stopfunc (r : Reader) : Option (Reader × List Ev) :=
  match r.pausefunc with
  | none => none
  | some rp => some ({ rp.1 with task := none }, rp.2 ++ [Ev.taskClose])

/-! ### `Mainwindow` state -/

/-- The `Mainwindow` fields the acquisition / logging core reads and
writes.  tk variables are plain cells; widget layout is omitted. -/
structure MState where
  folder : List Char
  tdmsFilename : List Char
  sampleRateStr : List Char
  sampleChanStr : List Char
  physChans : List Char
  rangeMin : ℤ
  rangeMax : ℤ
  termconfig : TermConfig
  logging : Bool
  maxSamplesFile : ℤ
  amountSamples : ℤ
  reader : Option Reader
  btnStartEnabled : Bool
  btnStopEnabled : Bool
  btnLoggingEnabled : Bool
deriving DecidableEq

/-- Segment file name `<folder>/TDMS_<timestamp>.tdms` (lines 457, 513);
`now` is the `datetime.now().strftime(...)` timestamp, supplied by the
environment. -/
def tdmsName (folder now : List Char) : List Char :=
  folder ++ ("/TDMS_").toList ++ now ++ (".tdms").toList

/-- Title of the ratio-error dialog (line 433). -/
def ratioErrTitle : List Char :=
  ("Samples/channel incompatible with chosen sample rate").toList

/-- Outcome of `Mainwindow.start_reading`: `rejected` is the ratio-check
error branch, `crashed` an uncaught Python exception (failed
`int_from_str` parse or division by a zero rate). -/
inductive StartOutcome
  | crashed
  | rejected
  | started
deriving DecidableEq

structure StartResult where
  outcome : StartOutcome
  state : MState
  events : List Ev
deriving DecidableEq

/-- `Mainwindow.start_reading` (lines 423-468).  Hardware calls are
assumed to succeed (the `except nidaqmx.errors.DaqError` handler is
modelled separately by `Mainwindow.show_error`).  Note the source
compares `samp_chan/samp_rate` with float division; the comparison is
modelled in exact arithmetic, and a zero rate models the uncaught
`ZeroDivisionError`. -/
def Mainwindow.start_reading (m : MState) (now : List Char) : StartResult :=
  let m1 := { m with btnStartEnabled := false, btnStopEnabled := true,
                     btnLoggingEnabled := false }
  match int_from_str m.sampleRateStr, int_from_str m.sampleChanStr with
  | some rate, some bs =>
    if rate = 0 then { outcome := .crashed, state := m1, events := [] }
    else if (bs : ℚ) / (rate : ℚ) < 1 / 10 ∨ (bs : ℚ) / (rate : ℚ) > 5 then
      { outcome := .rejected
        state := { m1 with btnStartEnabled := true, btnStopEnabled := false,
                           amountSamples := 0 }
        events := [Ev.msgBox ratioErrTitle] }
    else
      let r0 := Reader.init m.physChans rate bs m.logging m.rangeMin m.rangeMax m.termconfig
      let rc := r0.configure_task
      if m.logging then
        let name := tdmsName m.folder now
        let r2 : Reader :=
          { rc.1 with task :=
              (rc.1.task.map fun t =>
                { t with loggingPath := some name, inputBufSize := some (rate * 5) }) }
        match r2.start_reading with
        | some rp =>
          { outcome := .started
            state := { m1 with tdmsFilename := name, reader := some rp.1 }
            events := rc.2 ++ [Ev.cfgLogging name, Ev.setInputBufSize (rate * 5)] ++ rp.2 }
        | none =>
          { outcome := .crashed
            state := { m1 with tdmsFilename := name }
            events := rc.2 ++ [Ev.cfgLogging name, Ev.setInputBufSize (rate * 5)] }
      else
        match rc.1.start_reading with
        | some rp =>
          { outcome := .started
            state := { m1 with reader := some rp.1 }
            events := rc.2 ++ rp.2 }
        | none => { outcome := .crashed, state := m1, events := rc.2 }
  | _, _ => { outcome := .crashed, state := m1, events := [] }

/-- `Mainwindow.stop_reading` (lines 486-493): button states and the
sample counter are reset, then `self.reader.stopfunc()`.  `none` models
the `AttributeError` when `self.reader` is `False` or the task is
already closed (the partial tk updates before the raise are dropped). -/
def Mainwindow.stop_reading (m : MState) : Option (MState × List Ev) :=
  let m1 := { m with btnStartEnabled := true, btnStopEnabled := false,
                     btnLoggingEnabled := true, amountSamples := 0 }
  match m.reader with
  | none => none
  | some r =>
    match r.stopfunc with
    | none => none
    | some rp => some ({ m1 with reader := some rp.1 }, rp.2)

/-- `Mainwindow.show_error` (lines 539-546): queries the device's
extended error info (`diag` models the buffer contents), stops the
session, and shows a dialog whose text is built from `diag` verbatim. -/
def Mainwindow.show_error (m : MState) (code : ℤ) (diag : List Char) :
    Option (MState × List Ev) :=
  match Mainwindow.stop_reading m with
  | none => none
  | some mp => some (mp.1, mp.2 ++ [Ev.errorBox code diag])

/-! ### The streaming callback (lines 495-518) and segmentation step -/

/-- The counter / rollover step at lines 509-516: the counter cell is
advanced by `incr` (the `if self.logging` branch contributes the parsed
sample-rate value, and `0` otherwise), then compared against
`max_samples_file`; on rollover the counter is reset to `0`. -/
def segStep (incr maxS c : ℤ) : ℤ × Bool :=
  if c + incr ≥ maxS then (0, true) else (c + incr, false)

/-- `segStep` iterated from a fresh counter, also counting rollovers. -/
def segIter (incr maxS : ℤ) : ℕ → ℤ × ℕ
  | 0 => ((0 : ℤ), 0)
  | n + 1 =>
    let p := segIter incr maxS n
    let q := segStep incr maxS p.1
    (q.1, p.2 + (if q.2 then 1 else 0))

/-- Number of callbacks between consecutive rollovers of `segStep`:
`⌈maxS / incr⌉` for positive `incr` and `maxS`. -/
def segPeriod (incr maxS : ℕ) : ℕ :=
  (maxS + incr - 1) / incr

/-- An exception escaping `Mainwindow.callback` (which has no handler). -/
inductive CbErr
  | daqRead (diag : List Char)
  | pyError
deriving DecidableEq

structure CbResult where
  state : MState
  events : List Ev
  raised : Option CbErr
deriving DecidableEq

/-- `Mainwindow.callback` (lines 495-518).  `readErr = some diag` means
`read_many_sample` raised a `DaqError` with extended diagnostic `diag`:
the callback body has no try/except, so the exception propagates and
nothing after the read runs.  On a successful read the block is plotted,
then — if logging is enabled — the counter is advanced by
`int_from_str(self.sample_rate.get())`, and the rollover comparison at
line 512 runs unconditionally. -/
def Mainwindow.callback (m : MState) (now : List Char) (readErr : Option (List Char)) :
    CbResult :=
  match m.reader with
  | none => { state := m, events := [], raised := some CbErr.pyError }
  | some r =>
    let readEv := Ev.readBlock r.dataInRows r.dataInCols r.blockSize
    match readErr with
    | some diag => { state := m, events := [readEv], raised := some (CbErr.daqRead diag) }
    | none =>
      let evs := [readEv, Ev.plot]
      match (if m.logging then int_from_str m.sampleRateStr else some 0) with
      | none => { state := m, events := evs, raised := some CbErr.pyError }
      | some incr =>
        let sr := segStep incr m.maxSamplesFile m.amountSamples
        if sr.2 then
          let name := tdmsName m.folder now
          { state := { m with amountSamples := sr.1, tdmsFilename := name }
            events := evs ++ [Ev.startNewFile name]
            raised := none }
        else
          { state := { m with amountSamples := sr.1 }, events := evs, raised := none }

/-! ### Concrete demonstration states -/

def demoChans : List Char := ("Dev1/ai0").toList

def now0 : List Char := ("20260101-000000").toList

/-- A `Reader` brought to the Running state through `Reader.init`,
`configure_task` and `start_reading`. -/
def runningReader (rate bs : ℤ) (lg : Bool) : Reader :=
  let r1 := (Reader.init demoChans rate bs lg (-5) 5 TermConfig.default).configure_task
  match r1.1.start_reading with
  | some rp => rp.1
  | none => r1.1

/-- A `Mainwindow` state mid-session with a running reader. -/
def runState (rateStr chanStr : List Char) (rate bs : ℤ) (lg : Bool) (maxS : ℤ) : MState :=
  { folder := ("/data").toList
    tdmsFilename := ("Choose Folder").toList
    sampleRateStr := rateStr
    sampleChanStr := chanStr
    physChans := demoChans
    rangeMin := -5
    rangeMax := 5
    termconfig := TermConfig.default
    logging := lg
    maxSamplesFile := maxS
    amountSamples := 0
    reader := some (runningReader rate bs lg)
    btnStartEnabled := false
    btnStopEnabled := true
    btnLoggingEnabled := false }

/-- C1 scenario: sample rate `200k`, samples/channel (block size) `20k`
(ratio `0.1`, accepted by the validator), logging enabled, fresh file. -/
def mwC1 : MState := runState (("200k").toList) (("20k").toList) 200000 20000 true 3000000

/-- C3 scenario: rate = block = `200k`, `max_samples_file = 300000`
(not a multiple of the per-callback increment), logging enabled. -/
def mwC3 : MState := runState (("200k").toList) (("200k").toList) 200000 200000 true 300000

/-- C4 scenario: a running session; the device read fails. -/
def mwC4 : MState := runState (("200k").toList) (("200k").toList) 200000 200000 false 3000000

/-- C4 device diagnostic text. -/
def diagC4 : List Char := ("Onboard device memory overflow").toList

/-- C6 scenario: logging disabled, counter 0. -/
def mwC6 : MState := mwC4

/-- The reader object of `mwC4`/`mwC6`. -/
def rdC6 : Reader := runningReader 200000 200000 false

/-- C6 counterexample scenario: a session whose logging was toggled off
mid-run (`openfolder` calls `logging_toggle` unconditionally and the
Browse button is never disabled), leaving a counter residue of 400000,
after which the operator lowered `max_samples_file` to 300000 (the entry
stays editable mid-run and the threshold is re-read at each check). -/
def mwC6x : MState := { mwC4 with amountSamples := 400000, maxSamplesFile := 300000 }

/-- The task state programmed into `rdC6`. -/
def tkC6 : TaskState :=
  { sampClkRate := 200000
    sampClkSampsPerChan := 2000000
    inputBufSize := none
    loggingPath := none
    everyN := some 200000
    started := true }

/-- Idle state used for the `start_reading` witnesses (no reader yet). -/
def idleState (rateStr chanStr : List Char) (lg : Bool) : MState :=
  { folder := ("/data").toList
    tdmsFilename := ("Choose Folder").toList
    sampleRateStr := rateStr
    sampleChanStr := chanStr
    physChans := demoChans
    rangeMin := -5
    rangeMax := 5
    termconfig := TermConfig.default
    logging := lg
    maxSamplesFile := 3000000
    amountSamples := 0
    reader := none
    btnStartEnabled := true
    btnStopEnabled := false
    btnLoggingEnabled := true }

/-- C2 boundary scenario: ratio exactly `0.1`. -/
def mwC2a : MState := idleState (("200k").toList) (("20k").toList) false

/-- C2 boundary scenario: ratio exactly `5`. -/
def mwC2b : MState := idleState (("200k").toList) (("1M").toList) false

/-- C5 scenario: the spec's rejected example, rate `200k`, block `5000`. -/
def mwC5 : MState := idleState (("200k").toList) (("5000").toList) false

/-- C8 scenario: logging enabled, valid ratio. -/
def mwC8 : MState := idleState (("200k").toList) (("200k").toList) true

/-! ### Claim theorems -/

/-- Claim C1 (code bug): the spec says the per-callback advance of the
`amount_samples_var` counter is `block_size`, but lines 509-511 add
`int_from_str(self.sample_rate.get())`.  At sample rate `200k` and
samples/channel `20k` (ratio `0.1`, accepted by the validator) one
callback with logging enabled advances the counter by `200000`, not by
the block size `20000`. -/
theorem C1_counter_advances_by_sample_rate :
    int_from_str mwC1.sampleRateStr = some 200000
    ∧ int_from_str mwC1.sampleChanStr = some 20000
    ∧ mwC1.logging = true
    ∧ mwC1.amountSamples = 0
    ∧ (Mainwindow.callback mwC1 now0 none).state.amountSamples = 200000
    ∧ (200000 : ℤ) ≠ 20000 := by decide

/-- Claim C3, counterexample: with `block_size = 200000` delivered per
callback (rate also `200k`, so the counter advance equals the block
size) and `max_samples_per_file = 300000`, after `N = 2` callbacks the
claimed counter value is `(2 * 200000) % 300000 = 100000`, but the code
resets the counter to `0` on rollover, discarding the overshoot. -/
theorem C3_counter_formula_false :
    (Mainwindow.callback (Mainwindow.callback mwC3 now0 none).state now0 none).state.amountSamples
        = 0
    ∧ ((2 * 200000 : ℤ) % 300000 = 100000)
    ∧ (Mainwindow.callback (Mainwindow.callback mwC3 now0 none).state now0 none).state.amountSamples
        ≠ (2 * 200000 : ℤ) % 300000 := by decide

/-- Claim C4, counterexample: a `DaqError` raised by the in-callback
read is NOT surfaced and does NOT force the session to Stopped — the
callback has no exception handler, so the error propagates with the
session state unchanged: the task is still present and started, no
`task.stop`/`task.close` is issued, and no error dialog is shown. -/
theorem C4_read_error_not_surfaced :
    (Mainwindow.callback mwC4 now0 (some diagC4)).state = mwC4
    ∧ (Mainwindow.callback mwC4 now0 (some diagC4)).raised = some (CbErr.daqRead diagC4)
    ∧ (Mainwindow.callback mwC4 now0 (some diagC4)).events = [Ev.readBlock 1 200000 200000]
    ∧ mwC4.reader = some rdC6
    ∧ rdC6.task = some tkC6
    ∧ tkC6.started = true
    ∧ Ev.taskStop ∉ (Mainwindow.callback mwC4 now0 (some diagC4)).events
    ∧ Ev.taskClose ∉ (Mainwindow.callback mwC4 now0 (some diagC4)).events := by decide

/-- Claim C4, amended: (i) a read error inside the streaming callback
propagates out of the callback uncaught — the read is attempted exactly
once (no retry), the session state is left unchanged, and no
pause/close/report happens there; (ii) device errors caught at
configuration/start time are the ones routed to `show_error`, which
stops the session (pause, then close) and reports the device's own
extended diagnostic text verbatim. -/
theorem C4_error_paths :
    (∀ (m : MState) (r : Reader) (now diag : List Char), m.reader = some r →
       Mainwindow.callback m now (some diag) =
         { state := m
           events := [Ev.readBlock r.dataInRows r.dataInCols r.blockSize]
           raised := some (CbErr.daqRead diag) })
    ∧ (∀ (m : MState) (r : Reader) (t : TaskState) (code : ℤ) (diag : List Char),
        m.reader = some r → r.task = some t →
        Mainwindow.show_error m code diag =
          some ({ m with btnStartEnabled := true, btnStopEnabled := false,
                         btnLoggingEnabled := true, amountSamples := 0,
                         reader := some { r with task := none } },
                [Ev.taskStop, Ev.taskClose, Ev.errorBox code diag])) := by
  constructor
  · intro m r now diag hr
    simp [Mainwindow.callback, hr]
  · intro m r t code diag hr ht
    simp [Mainwindow.show_error, Mainwindow.stop_reading, Reader.stopfunc,
          Reader.pausefunc, hr, ht]

/-- Claim C4, witness for the amended theorem at a concrete state. -/
theorem C4_error_paths_witness :
    mwC4.reader = some rdC6
    ∧ Mainwindow.callback mwC4 now0 (some diagC4) =
        { state := mwC4
          events := [Ev.readBlock rdC6.dataInRows rdC6.dataInCols rdC6.blockSize]
          raised := some (CbErr.daqRead diagC4) } :=
  ⟨by decide, C4_error_paths.1 mwC4 rdC6 now0 diagC4 (by decide)⟩

/-- Claim C6, counterexample: the rollover comparison at line 512 runs
outside the `if self.logging:` guard, so a logging-disabled callback is
NOT a frame rule.  In a reachable state — logging toggled off mid-run
(`openfolder` → `logging_toggle`) with a counter residue of 400000, and
the threshold lowered mid-run to 300000 — the next callback with logging
disabled fires `start_new_file` and resets the counter to 0, changing
both the segmentation state and the set of persisted segments. -/
theorem C6_rollover_without_logging :
    mwC6x.logging = false
    ∧ mwC6x.amountSamples = 400000
    ∧ mwC6x.maxSamplesFile = 300000
    ∧ (Mainwindow.callback mwC6x now0 none).state.amountSamples = 0
    ∧ (Mainwindow.callback mwC6x now0 none).events
        = [Ev.readBlock 1 200000 200000, Ev.plot,
           Ev.startNewFile (tdmsName mwC6x.folder now0)]
    ∧ (Mainwindow.callback mwC6x now0 none).state.tdmsFilename
        = tdmsName mwC6x.folder now0
    ∧ (Mainwindow.callback mwC6x now0 none).raised = none := by decide

/-- Claim C6, amended: while logging is disabled a callback never
advances the counter, and when the carried-over counter is below the
(re-read) threshold the whole state — counter, current segment file,
reader — is left unchanged, with no rollover and nothing raised.  But
the rollover comparison at line 512 runs regardless of the logging
flag: a logging-disabled callback whose carried-over counter has reached
the threshold still closes the segment (`start_new_file`) and resets the
counter to 0. -/
theorem C6_no_logging_amended :
    (∀ (m : MState) (r : Reader) (now : List Char),
       m.reader = some r → m.logging = false →
       m.amountSamples < m.maxSamplesFile →
       (Mainwindow.callback m now none).state = m
       ∧ (Mainwindow.callback m now none).events
           = [Ev.readBlock r.dataInRows r.dataInCols r.blockSize, Ev.plot]
       ∧ (Mainwindow.callback m now none).raised = none)
    ∧ (∀ (m : MState) (r : Reader) (now : List Char),
       m.reader = some r → m.logging = false →
       m.maxSamplesFile ≤ m.amountSamples →
       (Mainwindow.callback m now none).state
           = { m with amountSamples := 0, tdmsFilename := tdmsName m.folder now }
       ∧ (Mainwindow.callback m now none).events
           = [Ev.readBlock r.dataInRows r.dataInCols r.blockSize, Ev.plot,
              Ev.startNewFile (tdmsName m.folder now)]
       ∧ (Mainwindow.callback m now none).raised = none) := by
  constructor
  · intro m r now hr hlog hc
    have hcond : ¬ m.maxSamplesFile ≤ m.amountSamples := by omega
    simp [Mainwindow.callback, hr, hlog, segStep, hcond]
    rw [← hlog, ← hr]
  · intro m r now hr hlog hc
    simp [Mainwindow.callback, hr, hlog, segStep, hc]

theorem C6_no_logging_amended_witness :
    mwC6.reader = some rdC6
    ∧ mwC6.logging = false
    ∧ mwC6.amountSamples < mwC6.maxSamplesFile
    ∧ (Mainwindow.callback mwC6 now0 none).state = mwC6
    ∧ mwC6x.maxSamplesFile ≤ mwC6x.amountSamples
    ∧ (Mainwindow.callback mwC6x now0 none).state
        = { mwC6x with amountSamples := 0, tdmsFilename := tdmsName mwC6x.folder now0 } :=
  ⟨by decide, by decide, by decide,
   (C6_no_logging_amended.1 mwC6 rdC6 now0 (by decide) (by decide) (by decide)).1,
   by decide,
   (C6_no_logging_amended.2 mwC6x rdC6 now0 (by decide) (by decide) (by decide)).1⟩

/-- Claim C7 (confirmed): `stop_reading` on a session with a live task
always pauses first (`task.stop`) and then releases the handle exactly
once (`task.close`, the only close in the trace), leaving `task = False`;
the stopped reader can be neither restarted (`start_reading` raises) nor
stopped again (`stopfunc` raises) — a fresh configure is required. -/
theorem C7_stop_pause_then_close (m : MState) (r : Reader) (t : TaskState)
    (hm : m.reader = some r) (ht : r.task = some t) :
    Mainwindow.stop_reading m =
      some ({ m with btnStartEnabled := true, btnStopEnabled := false,
                     btnLoggingEnabled := true, amountSamples := 0,
                     reader := some { r with task := none } },
            [Ev.taskStop, Ev.taskClose])
    ∧ Reader.start_reading { r with task := none } = none
    ∧ Reader.stopfunc { r with task := none } = none := by
  refine ⟨?_, by simp [Reader.start_reading], by simp [Reader.stopfunc, Reader.pausefunc]⟩
  simp [Mainwindow.stop_reading, Reader.stopfunc, Reader.pausefunc, hm, ht]

theorem C7_stop_pause_then_close_witness :
    mwC6.reader = some rdC6
    ∧ rdC6.task = some tkC6
    ∧ Mainwindow.stop_reading mwC6 =
        some ({ mwC6 with btnStartEnabled := true, btnStopEnabled := false,
                          btnLoggingEnabled := true, amountSamples := 0,
                          reader := some { rdC6 with task := none } },
              [Ev.taskStop, Ev.taskClose]) :=
  ⟨by decide, by decide,
   (C7_stop_pause_then_close mwC6 rdC6 tkC6 (by decide) (by decide)).1⟩

/-- Claim C9 (confirmed): the sample buffer is allocated at `Reader`
construction with `1 + (number of commas in the channel string)` rows
and `block_size` columns; every callback reads exactly
`settings["sample block size"]` samples/channel into that same buffer
(the first event of every successful-read callback), and the reader —
buffer shape included — is never replaced or resized by a callback. -/
theorem C9_buffer_shape :
    (∀ (chans : List Char) (rate bs : ℤ) (lg : Bool) (vmin vmax : ℤ) (tc : TermConfig),
       (Reader.init chans rate bs lg vmin vmax tc).dataInRows
           = (chans.filter (fun c => c = ',')).length + 1
       ∧ (Reader.init chans rate bs lg vmin vmax tc).dataInCols = bs)
    ∧ (∀ (m : MState) (r : Reader) (now : List Char), m.reader = some r →
        (Mainwindow.callback m now none).events.head?
            = some (Ev.readBlock r.dataInRows r.dataInCols r.blockSize)
        ∧ (Mainwindow.callback m now none).state.reader = some r) := by
  constructor
  · intro chans rate bs lg vmin vmax tc
    exact ⟨rfl, rfl⟩
  · intro m r now hr
    simp only [Mainwindow.callback, hr]
    rcases h : (if m.logging = true then int_from_str m.sampleRateStr else some 0) with _ | incr
    · simp [h, hr]
    · simp only [h]
      split <;> simp [hr]

theorem C9_buffer_shape_witness :
    mwC6.reader = some rdC6
    ∧ (Reader.init demoChans 200000 20000 true (-5) 5 TermConfig.default).dataInRows
        = (demoChans.filter (fun c => c = ',')).length + 1
    ∧ (demoChans.filter (fun c => c = ',')).length + 1 = 1
    ∧ (Mainwindow.callback mwC6 now0 none).state.reader = some rdC6 :=
  ⟨by decide,
   (C9_buffer_shape.1 demoChans 200000 20000 true (-5) 5 TermConfig.default).1,
   by decide,
   (C9_buffer_shape.2 mwC6 rdC6 now0 (by decide)).2⟩

/-- Claim C5 (confirmed): when the ratio check fails, `start_reading`
returns after the error dialog with no hardware action at all — the
event trace is exactly the dialog, and the state differs from the
pre-call state only in the reset sample counter and the three button
states (in particular `self.reader` and every other field are
untouched). -/
theorem C5_atomic_reject (m : MState) (now : List Char) (rate bs : ℤ)
    (hr : int_from_str m.sampleRateStr = some rate)
    (hb : int_from_str m.sampleChanStr = some bs)
    (h0 : rate ≠ 0)
    (hbad : (bs : ℚ) / (rate : ℚ) < 1 / 10 ∨ (bs : ℚ) / (rate : ℚ) > 5) :
    Mainwindow.start_reading m now =
      { outcome := StartOutcome.rejected
        state := { m with btnStartEnabled := true, btnStopEnabled := false,
                          btnLoggingEnabled := false, amountSamples := 0 }
        events := [Ev.msgBox ratioErrTitle] } := by
  simp only [Mainwindow.start_reading, hr, hb]
  rw [if_neg h0, if_pos hbad]

theorem C5_atomic_reject_witness :
    int_from_str mwC5.sampleRateStr = some 200000
    ∧ int_from_str mwC5.sampleChanStr = some 5000
    ∧ Mainwindow.start_reading mwC5 now0 =
        { outcome := StartOutcome.rejected
          state := { mwC5 with btnStartEnabled := true, btnStopEnabled := false,
                               btnLoggingEnabled := false, amountSamples := 0 }
          events := [Ev.msgBox ratioErrTitle] } :=
  ⟨by decide, by decide,
   C5_atomic_reject mwC5 now0 200000 5000 (by decide) (by decide) (by decide)
     (Or.inl (by norm_num))⟩

/-- Claim C2 (confirmed): for positive parsed `rate` and `block_size`,
`start_reading` proceeds past validation to configuration and start
exactly when `0.1 ≤ block_size / rate ≤ 5`, both boundaries included;
otherwise it takes the ratio-error branch. -/
theorem C2_ratio_validation (m : MState) (now : List Char) (rate bs : ℤ)
    (hr : int_from_str m.sampleRateStr = some rate)
    (hb : int_from_str m.sampleChanStr = some bs)
    (hrp : 0 < rate) (hbp : 0 < bs) :
    (Mainwindow.start_reading m now).outcome = StartOutcome.started
      ↔ ((1 / 10 : ℚ) ≤ (bs : ℚ) / (rate : ℚ) ∧ (bs : ℚ) / (rate : ℚ) ≤ 5) := by
  have h0 : ¬ rate = 0 := by omega
  by_cases hbad : (bs : ℚ) / (rate : ℚ) < 1 / 10 ∨ (bs : ℚ) / (rate : ℚ) > 5
  · have houtcome : (Mainwindow.start_reading m now).outcome = StartOutcome.rejected := by
      simp only [Mainwindow.start_reading, hr, hb]
      rw [if_neg h0, if_pos hbad]
    rw [houtcome]
    constructor
    · intro h
      exact absurd h (by simp)
    · rintro ⟨h1, h2⟩
      rcases hbad with h | h
      · exact absurd h (not_lt.mpr h1)
      · exact absurd h (not_lt.mpr h2)
  · have houtcome : (Mainwindow.start_reading m now).outcome = StartOutcome.started := by
      simp only [Mainwindow.start_reading, hr, hb]
      rw [if_neg h0, if_neg hbad]
      cases m.logging <;> rfl
    rw [houtcome]
    push_neg at hbad
    exact ⟨fun _ => ⟨hbad.1, hbad.2⟩, fun _ => rfl⟩

theorem C2_ratio_validation_witness :
    int_from_str mwC2a.sampleRateStr = some 200000
    ∧ int_from_str mwC2a.sampleChanStr = some 20000
    ∧ int_from_str mwC2b.sampleChanStr = some 1000000
    ∧ (Mainwindow.start_reading mwC2a now0).outcome = StartOutcome.started
    ∧ (Mainwindow.start_reading mwC2b now0).outcome = StartOutcome.started :=
  ⟨by decide, by decide, by decide,
   (C2_ratio_validation mwC2a now0 200000 20000 (by decide) (by decide)
      (by decide) (by decide)).mpr (by norm_num),
   (C2_ratio_validation mwC2b now0 200000 1000000 (by decide) (by decide)
      (by decide) (by decide)).mpr (by norm_num)⟩

/-- Claim C8 (confirmed): whenever a session is configured (any logging
flag), the continuous sample clock is programmed with
`samps_per_chan = 10 * sample_rate`; and for every `Reader`,
`configure_task` programs exactly that ring depth into the task. -/
theorem C8_ring_depth (m : MState) (now : List Char) (rate bs : ℤ)
    (hr : int_from_str m.sampleRateStr = some rate)
    (hb : int_from_str m.sampleChanStr = some bs)
    (h0 : rate ≠ 0)
    (hok : ¬ ((bs : ℚ) / (rate : ℚ) < 1 / 10 ∨ (bs : ℚ) / (rate : ℚ) > 5)) :
    Ev.cfgClock rate (10 * rate) ∈ (Mainwindow.start_reading m now).events
    ∧ ∀ r : Reader,
        ((Reader.configure_task r).1.task.map fun t => t.sampClkSampsPerChan)
          = some (10 * r.sampleRate) := by
  refine ⟨?_, fun r => rfl⟩
  simp only [Mainwindow.start_reading, hr, hb]
  rw [if_neg h0, if_neg hok]
  cases m.logging <;>
    simp [Reader.configure_task, Reader.init, Reader.start_reading]

theorem C8_ring_depth_witness :
    int_from_str mwC8.sampleRateStr = some 200000
    ∧ mwC8.logging = true
    ∧ Ev.cfgClock 200000 (10 * 200000) ∈ (Mainwindow.start_reading mwC8 now0).events :=
  ⟨by decide, by decide,
   (C8_ring_depth mwC8 now0 200000 200000 (by decide) (by decide) (by decide)
      (by norm_num)).1⟩

lemma segPeriod_pos (A M : ℕ) (hA : 0 < A) (hM : 0 < M) : 0 < segPeriod A M :=
  Nat.div_pos (by omega) hA

lemma segPeriod_bounds (A M : ℕ) (hA : 0 < A) (hM : 0 < M) :
    M ≤ segPeriod A M * A ∧ segPeriod A M * A < M + A := by
  have h := Nat.div_add_mod (M + A - 1) A
  have h2 : (M + A - 1) % A < A := Nat.mod_lt _ hA
  unfold segPeriod
  rw [Nat.mul_comm]
  generalize (M + A - 1) % A = s at h h2
  generalize A * ((M + A - 1) / A) = t at h ⊢
  omega

lemma segStep_fires_iff (A M r : ℕ) (hA : 0 < A) (hM : 0 < M)
    (hr : r < segPeriod A M) :
    (M ≤ (r + 1) * A ↔ r + 1 = segPeriod A M) := by
  obtain ⟨hge, hlt⟩ := segPeriod_bounds A M hA hM
  have hkpos : 0 < segPeriod A M := segPeriod_pos A M hA hM
  constructor
  · intro h
    by_contra hne
    have h1 : r + 1 ≤ segPeriod A M - 1 := by omega
    have h2 : (r + 1) * A ≤ (segPeriod A M - 1) * A := mul_le_mul_right' h1 A
    have h4 : (segPeriod A M - 1) * A + A = segPeriod A M * A := by
      have h5 : segPeriod A M - 1 + 1 = segPeriod A M := by omega
      calc (segPeriod A M - 1) * A + A = (segPeriod A M - 1 + 1) * A := by ring
        _ = segPeriod A M * A := by rw [h5]
    linarith
  · intro h
    rw [h]
    exact hge

lemma segIter_eq (A M : ℕ) (hA : 0 < A) (hM : 0 < M) (N : ℕ) :
    segIter (A : ℤ) (M : ℤ) N
      = ((((N % segPeriod A M) * A : ℕ) : ℤ), N / segPeriod A M) := by
  induction N with
  | zero => simp [segIter]
  | succ n ih =>
    have hkpos : 0 < segPeriod A M := segPeriod_pos A M hA hM
    have hrlt : n % segPeriod A M < segPeriod A M := Nat.mod_lt _ hkpos
    have hdm := Nat.div_add_mod n (segPeriod A M)
    simp only [segIter, ih, segStep]
    have hcast : ((((n % segPeriod A M) * A : ℕ) : ℤ) + (A : ℤ))
        = (((n % segPeriod A M + 1) * A : ℕ) : ℤ) := by push_cast; ring
    by_cases hfire : n % segPeriod A M + 1 = segPeriod A M
    · have hcond : (M : ℤ) ≤ (((n % segPeriod A M) * A : ℕ) : ℤ) + (A : ℤ) := by
        rw [hcast]
        exact_mod_cast (segStep_fires_iff A M (n % segPeriod A M) hA hM hrlt).mpr hfire
      rw [if_pos hcond]
      have hsum : n + 1 = segPeriod A M * (n / segPeriod A M + 1) := by
        rw [Nat.mul_succ]
        generalize segPeriod A M * (n / segPeriod A M) = t at hdm ⊢
        omega
      have h1 : (n + 1) % segPeriod A M = 0 := by
        rw [hsum]; exact Nat.mul_mod_right _ _
      have h2 : (n + 1) / segPeriod A M = n / segPeriod A M + 1 := by
        rw [hsum]; exact Nat.mul_div_cancel_left _ hkpos
      simp [h1, h2]
    · have hcond : ¬ ((M : ℤ) ≤ (((n % segPeriod A M) * A : ℕ) : ℤ) + (A : ℤ)) := by
        rw [hcast]
        intro hc
        exact hfire ((segStep_fires_iff A M (n % segPeriod A M) hA hM hrlt).mp
          (by exact_mod_cast hc))
      rw [if_neg hcond]
      have hsum : n + 1 = segPeriod A M * (n / segPeriod A M) + (n % segPeriod A M + 1) := by
        omega
      have h1 : (n + 1) % segPeriod A M = n % segPeriod A M + 1 := by
        rw [hsum, Nat.mul_add_mod]
        exact Nat.mod_eq_of_lt (by omega)
      have hlt2 : n % segPeriod A M + 1 < segPeriod A M := by omega
      have h2 : (n + 1) / segPeriod A M = n / segPeriod A M := by
        rw [hsum, Nat.mul_add_div hkpos, Nat.div_eq_of_lt hlt2, Nat.add_zero]
      rw [h1, h2, hcast]
      simp

/-- Claim C3, amended: starting from a fresh counter, with `A` the
per-callback counter advance (the parsed sample-rate value, per C1 equal
to `block_size` only when the two settings coincide) and fixed threshold
`M`, the segmentation step rolls over exactly `⌊N / ⌈M/A⌉⌋` times in `N`
callbacks and leaves the counter at `(N mod ⌈M/A⌉) * A` — the counter is
reset to `0` on rollover, discarding the overshoot.  When `M` is an exact
multiple of `A` this coincides with the claimed
`⌊N*A/M⌋` rollovers and counter `(N*A) mod M`. -/
theorem C3_segmentation_amended (A M : ℕ) (hA : 0 < A) (hM : 0 < M) (N : ℕ) :
    segIter (A : ℤ) (M : ℤ) N
        = ((((N % segPeriod A M) * A : ℕ) : ℤ), N / segPeriod A M)
    ∧ (∀ d : ℕ, M = d * A →
        ((N % segPeriod A M) * A = (N * A) % M ∧ N / segPeriod A M = (N * A) / M)) := by
  refine ⟨segIter_eq A M hA hM N, ?_⟩
  intro d hd
  have hkd : segPeriod A M = d := by
    subst hd
    unfold segPeriod
    have h1 : d * A + A - 1 = (A - 1) + A * d := by
      rw [Nat.mul_comm d A]
      generalize A * d = t
      omega
    rw [h1, Nat.add_mul_div_left _ _ hA, Nat.div_eq_of_lt (by omega), Nat.zero_add]
  rw [hkd, hd]
  constructor
  · rw [Nat.mul_mod_mul_right]
  · rw [Nat.mul_div_mul_right]
    omega

theorem C3_segmentation_amended_witness :
    0 < (2 : ℕ) ∧ 0 < (3 : ℕ)
    ∧ segIter ((2 : ℕ) : ℤ) ((3 : ℕ) : ℤ) 3
        = ((((3 % segPeriod 2 3) * 2 : ℕ) : ℤ), 3 / segPeriod 2 3) :=
  ⟨by decide, by decide, (C3_segmentation_amended 2 3 (by decide) (by decide) 3).1⟩

lemma replaceChar_append (t : Char) (rep a b : List Char) :
    replaceChar t rep (a ++ b) = replaceChar t rep a ++ replaceChar t rep b := by
  induction a with
  | nil => rfl
  | cons c cs ih => simp [replaceChar, ih]

lemma replaceKM_cons (c : Char) (cs : List Char) :
    replaceKM (c :: cs)
      = (if c = 'k' then ['E', '3'] else if c = 'M' then ['E', '6'] else [c])
          ++ replaceKM cs := by
  by_cases hk : c = 'k'
  · subst hk; simp [replaceKM, replaceChar, replaceChar_append]
  · by_cases hM : c = 'M'
    · subst hM; simp [replaceKM, replaceChar, replaceChar_append]
    · simp [replaceKM, replaceChar, replaceChar_append, hk, hM]

lemma stripTrail_append (a b : List Char) :
    stripTrail (a ++ b) = match stripTrail b with
      | some t => some (a ++ t)
      | none => stripTrail a := by
  unfold stripTrail
  rw [List.reverse_append, List.dropWhile_append]
  by_cases hb : List.dropWhile (fun c => !(isDigitChar c)) b.reverse = []
  · simp [hb]
  · simp [hb, List.isEmpty_iff]

lemma isDigitChar_E : isDigitChar 'E' = false := by decide

lemma isDigitChar_three : isDigitChar '3' = true := by decide

lemma isDigitChar_six : isDigitChar '6' = true := by decide

lemma rkm_takeWhile_digit_nil (s : List Char) (hs : ∀ c ∈ s, isDigitChar c = false)
    (d : Char) :
    (replaceKM s ++ ['E', d]).takeWhile isDigitChar = [] := by
  cases s with
  | nil => simp [replaceKM, replaceChar, List.takeWhile_cons, isDigitChar_E]
  | cons c cs =>
    rw [replaceKM_cons]
    by_cases hk : c = 'k'
    · simp [hk, List.takeWhile_cons, isDigitChar_E]
    · by_cases hM : c = 'M'
      · simp [hk, hM, List.takeWhile_cons, isDigitChar_E]
      · have hc : isDigitChar c = false := hs c (List.mem_cons_self c cs)
        simp [hk, hM, List.takeWhile_cons, hc]

lemma rkm_dropWhile_digit_self (s : List Char) (hs : ∀ c ∈ s, isDigitChar c = false)
    (d : Char) :
    (replaceKM s ++ ['E', d]).dropWhile isDigitChar = replaceKM s ++ ['E', d] := by
  cases s with
  | nil => simp [replaceKM, replaceChar, List.dropWhile_cons, isDigitChar_E]
  | cons c cs =>
    rw [replaceKM_cons]
    by_cases hk : c = 'k'
    · simp [hk, List.dropWhile_cons, isDigitChar_E]
    · by_cases hM : c = 'M'
      · simp [hk, hM, List.dropWhile_cons, isDigitChar_E]
      · have hc : isDigitChar c = false := hs c (List.mem_cons_self c cs)
        simp [hk, hM, List.dropWhile_cons, hc]

lemma rkm_mantissa_fail (s : List Char) (hs : ∀ c ∈ s, isDigitChar c = false)
    (d : Char) :
    parseMantissa (replaceKM s ++ ['E', d]) = none := by
  simp only [parseMantissa, rkm_takeWhile_digit_nil s hs d, rkm_dropWhile_digit_self s hs d]
  cases s with
  | nil => simp [replaceKM, replaceChar]
  | cons c cs =>
    rw [replaceKM_cons]
    by_cases hk : c = 'k'
    · simp [hk]
    · by_cases hM : c = 'M'
      · simp [hk, hM]
      · by_cases hdot : c = '.'
        · have hs' : ∀ x ∈ cs, isDigitChar x = false :=
            fun x hx => hs x (List.mem_cons_of_mem c hx)
          simp [hk, hM, hdot, rkm_takeWhile_digit_nil cs hs' d]
        · simp [hk, hM, hdot]

lemma isSpaceChar_E : isSpaceChar 'E' = false := by decide

lemma isSpaceChar_three : isSpaceChar '3' = false := by decide

lemma isSpaceChar_six : isSpaceChar '6' = false := by decide

lemma rkm_dropSpace_shape (s : List Char) (hs : ∀ c ∈ s, isDigitChar c = false)
    (d : Char) :
    ∃ s' : List Char, (∀ c ∈ s', isDigitChar c = false)
      ∧ (replaceKM s ++ ['E', d]).dropWhile isSpaceChar = replaceKM s' ++ ['E', d] := by
  induction s with
  | nil => exact ⟨[], by simp, by simp [replaceKM, replaceChar, List.dropWhile_cons, isSpaceChar_E]⟩
  | cons c cs ih =>
    have hs' : ∀ x ∈ cs, isDigitChar x = false :=
      fun x hx => hs x (List.mem_cons_of_mem c hx)
    rw [replaceKM_cons]
    by_cases hk : c = 'k'
    · refine ⟨c :: cs, hs, ?_⟩
      rw [replaceKM_cons]
      simp [hk, List.dropWhile_cons, isSpaceChar_E]
    · by_cases hM : c = 'M'
      · refine ⟨c :: cs, hs, ?_⟩
        rw [replaceKM_cons]
        simp [hk, hM, List.dropWhile_cons, isSpaceChar_E]
      · by_cases hsp : isSpaceChar c = true
        · obtain ⟨s', hsd, hdw⟩ := ih hs'
          refine ⟨s', hsd, ?_⟩
          simp [hk, hM, List.dropWhile_cons, hsp, hdw]
        · refine ⟨c :: cs, hs, ?_⟩
          rw [replaceKM_cons]
          simp [hk, hM, List.dropWhile_cons, hsp]

lemma rkm_parseSign_shape (s : List Char) (hs : ∀ c ∈ s, isDigitChar c = false)
    (d : Char) :
    ∃ s' : List Char, (∀ c ∈ s', isDigitChar c = false)
      ∧ (parseSign (replaceKM s ++ ['E', d])).2 = replaceKM s' ++ ['E', d] := by
  cases s with
  | nil => exact ⟨[], by simp, by simp [replaceKM, replaceChar, parseSign]⟩
  | cons c cs =>
    have hs' : ∀ x ∈ cs, isDigitChar x = false :=
      fun x hx => hs x (List.mem_cons_of_mem c hx)
    rw [replaceKM_cons]
    by_cases hk : c = 'k'
    · refine ⟨c :: cs, hs, ?_⟩
      rw [replaceKM_cons]
      simp [hk, parseSign]
    · by_cases hM : c = 'M'
      · refine ⟨c :: cs, hs, ?_⟩
        rw [replaceKM_cons]
        simp [hk, hM, parseSign]
      · by_cases hplus : c = '+'
        · exact ⟨cs, hs', by simp [hk, hM, hplus, parseSign]⟩
        · by_cases hminus : c = '-'
          · exact ⟨cs, hs', by simp [hk, hM, hplus, hminus, parseSign]⟩
          · refine ⟨c :: cs, hs, ?_⟩
            rw [replaceKM_cons]
            simp [hk, hM, hplus, hminus, parseSign]

lemma rkm_parseFloatRep_fail (s : List Char) (hs : ∀ c ∈ s, isDigitChar c = false)
    (d : Char) :
    parseFloatRep (replaceKM s ++ ['E', d]) = none := by
  obtain ⟨s1, hs1, hdrop⟩ := rkm_dropSpace_shape s hs d
  obtain ⟨s2, hs2, hsign⟩ := rkm_parseSign_shape s1 hs1 d
  simp only [parseFloatRep, hdrop, hsign, rkm_mantissa_fail s2 hs2 d]

lemma rkm_strip_form (s : List Char) (hs : ∀ c ∈ s, isDigitChar c = false) :
    stripTrail (replaceKM s) = none
    ∨ ∃ (s' : List Char) (d : Char), (∀ c ∈ s', isDigitChar c = false)
        ∧ stripTrail (replaceKM s) = some (replaceKM s' ++ ['E', d]) := by
  induction s with
  | nil => left; rfl
  | cons c cs ih =>
    have hs' : ∀ x ∈ cs, isDigitChar x = false :=
      fun x hx => hs x (List.mem_cons_of_mem c hx)
    have hc : isDigitChar c = false := hs c (List.mem_cons_self c cs)
    rw [replaceKM_cons]
    rcases ih hs' with hnone | ⟨s', d, hsd, hsome⟩
    · rw [stripTrail_append, hnone]
      by_cases hk : c = 'k'
      · right
        refine ⟨[], '3', by simp, ?_⟩
        simp [hk, stripTrail, isDigitChar_E, isDigitChar_three, replaceKM, replaceChar]
      · by_cases hM : c = 'M'
        · right
          refine ⟨[], '6', by simp, ?_⟩
          simp [hk, hM, stripTrail, isDigitChar_E, isDigitChar_six, replaceKM, replaceChar]
        · left
          simp [hk, hM, stripTrail, hc]
    · rw [stripTrail_append, hsome]
      right
      refine ⟨c :: s', d, ?_, ?_⟩
      · intro x hx
        rcases List.mem_cons.mp hx with h | h
        · subst h; exact hc
        · exact hsd x h
      · rw [replaceKM_cons]
        simp

lemma pyTrunc_intCast (z : ℤ) : pyTrunc (z : ℚ) = z := by
  unfold pyTrunc
  by_cases hz : (0 : ℤ) ≤ z
  · rw [if_pos (by exact_mod_cast hz), Int.floor_intCast]
  · rw [if_neg (by exact_mod_cast hz), ← Int.cast_neg, Int.floor_intCast]
    omega

lemma pyTrunc_natCast_div (m k : ℕ) :
    pyTrunc ((m : ℚ) / ((k : ℕ) : ℚ)) = ((m / k : ℕ) : ℤ) := by
  unfold pyTrunc
  rw [if_pos (by positivity)]
  have h := Rat.floor_intCast_div_natCast (m : ℤ) k
  rw [Int.cast_natCast] at h
  rw [h, Int.ofNat_ediv]

lemma pyInt_eq_trunc_val (f : PyFloatRep) (hsg : f.sg = 1 ∨ f.sg = -1) :
    pyInt f = pyTrunc f.val := by
  unfold pyInt PyFloatRep.val
  by_cases hd : (0 : ℤ) ≤ f.dexp
  · rw [if_pos hd]
    have hpow : ((10 ^ f.dexp.toNat : ℕ) : ℚ) = (10 : ℚ) ^ f.dexp := by
      push_cast
      rw [← zpow_natCast (10 : ℚ) f.dexp.toNat]
      congr 1
      omega
    have hv : (f.sg : ℚ) * (f.mant : ℚ) * (10 : ℚ) ^ f.dexp
        = ((f.sg * ((f.mant * 10 ^ f.dexp.toNat : ℕ) : ℤ) : ℤ) : ℚ) := by
      rw [← hpow]
      push_cast
      ring
    rw [hv, pyTrunc_intCast]
  · rw [if_neg hd]
    have hpow : (10 : ℚ) ^ f.dexp = (((10 ^ (-f.dexp).toNat : ℕ) : ℚ))⁻¹ := by
      have h1 : (10 : ℚ) ^ f.dexp = ((10 : ℚ) ^ ((((-f.dexp).toNat : ℕ) : ℤ)))⁻¹ := by
        rw [← zpow_neg]
        congr 1
        omega
      rw [h1, zpow_natCast]
      congr 1
      push_cast
      ring
    have hv : (f.sg : ℚ) * (f.mant : ℚ) * (10 : ℚ) ^ f.dexp
        = (f.sg : ℚ) * ((f.mant : ℚ) / (((10 ^ (-f.dexp).toNat : ℕ) : ℕ) : ℚ)) := by
      rw [hpow]
      ring
    rw [hv]
    rcases hsg with h1 | h1
    · rw [h1, Int.cast_one, one_mul, one_mul, pyTrunc_natCast_div]
    · rw [h1]
      by_cases hm : f.mant = 0
      · simp [hm, pyTrunc]
      · have hpos : (0 : ℚ) < (f.mant : ℚ) / (((10 ^ (-f.dexp).toNat : ℕ) : ℕ) : ℚ) := by
          apply div_pos
          · exact_mod_cast Nat.pos_of_ne_zero hm
          · positivity
        have hneg : ((-1 : ℤ) : ℚ) * ((f.mant : ℚ) / (((10 ^ (-f.dexp).toNat : ℕ) : ℕ) : ℚ)) < 0 := by
          rw [Int.cast_neg, Int.cast_one, neg_one_mul]
          linarith
        unfold pyTrunc
        rw [if_neg (not_le.mpr hneg)]
        have hflip : -(((-1 : ℤ) : ℚ) * ((f.mant : ℚ) / (((10 ^ (-f.dexp).toNat : ℕ) : ℕ) : ℚ)))
            = (f.mant : ℚ) / (((10 ^ (-f.dexp).toNat : ℕ) : ℕ) : ℚ) := by
          rw [Int.cast_neg, Int.cast_one, neg_one_mul, neg_neg]
        rw [hflip]
        have h2 := pyTrunc_natCast_div f.mant (10 ^ (-f.dexp).toNat)
        unfold pyTrunc at h2
        rw [if_pos (by positivity)] at h2
        rw [h2]
        ring

lemma parseSign_fst (s : List Char) : (parseSign s).1 = 1 ∨ (parseSign s).1 = -1 := by
  cases s with
  | nil => left; rfl
  | cons c cs =>
    simp only [parseSign]
    by_cases hp : c = '+'
    · simp [hp]
    · by_cases hm : c = '-'
      · simp [hp, hm]
      · simp [hp, hm]

lemma parseFloatRep_sign (t : List Char) (f : PyFloatRep)
    (h : parseFloatRep t = some f) : f.sg = 1 ∨ f.sg = -1 := by
  simp only [parseFloatRep] at h
  rcases hm : parseMantissa (parseSign (List.dropWhile isSpaceChar t)).2 with _ | mv
  · simp only [hm] at h
    exact absurd h (by simp)
  · simp only [hm] at h
    rcases hr : mv.2.2 with _ | ⟨c, r2⟩
    · simp only [hr, Option.some.injEq] at h
      subst h
      exact parseSign_fst _
    · simp only [hr] at h
      by_cases he : c = 'e' ∨ c = 'E'
      · rw [if_pos he] at h
        rcases hx : parseExp r2 with _ | e
        · simp only [hx] at h
          exact absurd h (by simp)
        · simp only [hx, Option.some.injEq] at h
          subst h
          exact parseSign_fst _
      · rw [if_neg he] at h
        exact absurd h (by simp)

/-- Claim C10 (confirmed): `int_from_str` (i) returns no value on any
input containing no decimal digit (the strip loop or `float` raises);
(ii) maps `"200k"` to `200000` and `"1M"` to `1000000`; and (iii) on any
input whose transformed string still ends in a digit after the strip
loop, behaves exactly as `int(float(...))` of that transformed string —
`float` modelled by its exact parsed value, `int` by truncation toward
zero. -/
theorem C10_int_from_str_spec :
    (∀ s : List Char, (∀ c ∈ s, isDigitChar c = false) → int_from_str s = none)
    ∧ int_from_str (("200k").toList) = some 200000
    ∧ int_from_str (("1M").toList) = some 1000000
    ∧ (∀ s t : List Char, stripTrail (replaceKM s) = some t →
        int_from_str s = (parseFloatRep t).map (fun f => pyTrunc f.val)) := by
  refine ⟨?_, by decide, by decide, ?_⟩
  · intro s hs
    unfold int_from_str
    rcases rkm_strip_form s hs with h | ⟨s', d, hs', h⟩
    · rw [h]
    · simp only [h, rkm_parseFloatRep_fail s' hs' d]
  · intro s t h
    unfold int_from_str
    simp only [h]
    rcases hf : parseFloatRep t with _ | f
    · simp [hf]
    · simp only [hf, Option.map_some']
      rw [pyInt_eq_trunc_val f (parseFloatRep_sign t f hf)]

theorem C10_int_from_str_spec_witness :
    (∀ c ∈ (("abc").toList), isDigitChar c = false)
    ∧ int_from_str (("abc").toList) = none
    ∧ stripTrail (replaceKM (("2.5k").toList)) = some (("2.5E3").toList)
    ∧ int_from_str (("2.5k").toList)
        = (parseFloatRep (("2.5E3").toList)).map (fun f => pyTrunc f.val) :=
  ⟨by decide, C10_int_from_str_spec.1 _ (by decide), by decide,
   C10_int_from_str_spec.2.2.2 _ _ (by decide)⟩
